import Mathlib

/-!
A shallow embedding of the front end of `oatbuild.py` (the OatBuild
build-configuration DSL): the lexical scanner (`scan_file`), the token
stream (`TokenList`), and the recursive-descent command processor
(`parse_tokens` / `handle_command`), together with theorems checking the
natural-language specification against this embedding.

Modelling conventions:
- Python exceptions (`IndexError` from `TokenList.peek` past the end,
  `TypeError` from calling `skip_line` with a spurious argument,
  `AttributeError` from dereferencing `None`) are modelled as `Except`
  error results carrying the state at the moment the exception is raised
  (the state records everything observable: diagnostics already printed
  to stderr and the global `hadError` flag).
- Diagnostics printed by `print_error` are modelled by the inductive
  `Diag`, one constructor per distinct message, carrying the line number
  and lexeme interpolated into the message.
- Python `while` loops and the mutually recursive parameter consumption
  are modelled with an explicit fuel argument; every wrapper supplies
  fuel strictly larger than the number of loop iterations the Python
  code can perform (each iteration advances a strictly increasing
  cursor bounded by the list length), so the `outOfFuel` outcome is
  unreachable from the wrappers.
- `scan_file` takes the file contents directly; the initial file-open
  `OSError`, handled in `main`, is outside the embedded core.
- Strings are treated as their character lists (ASCII inputs), matching
  Python's per-character indexing.
-/

namespace Oat

inductive TokenType where
  | STRING
  | LEFT_PAREN
  | RIGHT_PAREN
  | COMMA
  | LINE_END
deriving DecidableEq

structure Token where
  tokenType : TokenType
  lexeme : String
  line : Nat
deriving DecidableEq

structure TokenList where
  tokens : List Token
  current : Nat
deriving DecidableEq

/-- `TokenList.advance`: returns the token at the cursor (or `none` past the
end) and the list with the cursor moved forward by one, mirroring
`self.current += 1; if self.current - 1 >= len(...): return None; return
self.tokens[self.current - 1]`. -/
def TokenList.advance (tl : TokenList) : Option Token × TokenList :=
  (tl.tokens.get? tl.current, ⟨tl.tokens, tl.current + 1⟩)

/-- `TokenList.peek`: `return self.tokens[self.current]`. A `none` result
here corresponds to Python raising `IndexError`; call sites translate it
to that exception. -/
def TokenList.peek (tl : TokenList) : Option Token :=
  tl.tokens.get? tl.current

/-- `TokenList.is_at_end`: `return self.current >= len(self.tokens)`. -/
def TokenList.is_at_end (tl : TokenList) : Bool :=
  tl.tokens.length ≤ tl.current

/-- Fueled body of `TokenList.skip_line`: `cur = self.advance(); while cur
!= None and cur.tokenType != LINE_END: cur = self.advance()`. -/
def skipLineFuel : Nat → TokenList → TokenList
  | 0, tl => tl
  | fuel + 1, tl =>
    match tl.advance with
    | (none, tl') => tl'
    | (some t, tl') =>
      if t.tokenType = TokenType.LINE_END then tl' else skipLineFuel fuel tl'

/-- `TokenList.skip_line`. The loop advances the strictly increasing cursor
once per iteration and stops as soon as it passes the end, so
`tokens.length + 1` units of fuel always suffice. -/
def TokenList.skip_line (tl : TokenList) : TokenList :=
  skipLineFuel (tl.tokens.length + 1) tl

/-- `CompileInfo.__init__` field defaults. -/
structure CompileInfo where
  projectName : String := ""
  compiler : String := "gcc"
  languageVersion : String := "c99"
  arch : String := "64"
  outputType : String := "executable"
  buildType : String := "release"
  files : List String := []
  sourcePaths : List String := []
  constants : List String := []
  includePaths : List String := []
  libraries : List String := []
  objectFiles : List String := []
  compilerFlags : List String := []
  linkerFlags : List String := []
deriving DecidableEq

/-- A fresh `CompileInfo()` with all defaults. -/
def CompileInfo.init : CompileInfo := {}

/-- One constructor per distinct `print_error` message of the front end,
carrying the interpolated line number and lexeme. -/
inductive Diag where
  | commandsMustBeginWithString (line : Nat) (lexeme : String)
  | unknownCommand (line : Nat) (lexeme : String)
  | expectedLeftParen (line : Nat) (lexeme : String)
  | expectedParameters (line : Nat) (lexeme : String)
  | expectedParameter (line : Nat) (lexeme : String)
  | expectedRightParenParameters (line : Nat) (lexeme : String)
  | expectedRightParenParameter (line : Nat) (lexeme : String)
  | invalidCompiler (line : Nat) (lexeme : String)
  | invalidLanguageVersion (line : Nat) (lexeme : String)
  | invalidArchitecture (line : Nat) (lexeme : String)
  | invalidOutputType (line : Nat) (lexeme : String)
  | invalidBuildType (line : Nat) (lexeme : String)
deriving DecidableEq

/-- The Python exceptions the embedded code can raise, plus the fuel
sentinel (unreachable with the ample fuel the wrappers supply). -/
inductive PyError where
  | indexError
  | typeError
  | attributeError
  | outOfFuel
deriving DecidableEq

/-- The mutable state of one run: the token stream cursor, the
`CompileInfo` being populated, the global `hadError` flag, and the
sequence of diagnostics printed so far. -/
structure St where
  tl : TokenList
  info : CompileInfo
  hadError : Bool
  diags : List Diag
deriving DecidableEq

/-- Result of a parsing step: either a value with the updated state, or a
raised exception together with the state at the raise point. -/
abbrev PResult (α : Type) := Except (PyError × St) (α × St)

/-- `print_error`: sets the global `hadError` flag and records the
diagnostic (Python prints it to stderr). -/
def print_error (d : Diag) (s : St) : St :=
  { s with hadError := true, diags := s.diags ++ [d] }

def St.advance (s : St) : Option Token × St :=
  ((s.tl.advance).1, { s with tl := (s.tl.advance).2 })

def St.peek (s : St) : Option Token :=
  s.tl.peek

def St.skipLine (s : St) : St :=
  { s with tl := s.tl.skip_line }

/-- `is_valid_character`: `c.isalnum() or c in {"_","-",".","/","\\",":","="}`
(ASCII fragment of Python's `isalnum`). -/
def is_valid_character (c : Char) : Bool :=
  c.isAlphanum || ['_', '-', '.', '/', '\\', ':', '='].contains c

/-- Length of the run of valid characters at the head of the list: the
number of steps `while tokenEnd < len(line) and
is_valid_character(line[tokenEnd]): tokenEnd += 1` performs. -/
def runLen : List Char → Nat
  | [] => 0
  | c :: rest => if is_valid_character c then runLen rest + 1 else 0

/-- Python slice `line[a:b]` for `0 ≤ a`, clamping like Python does. -/
def pySlice (line : List Char) (a b : Nat) : List Char :=
  (line.drop a).take (b - a)

/-- Fueled body of the per-line scanner loop of `scan_file`, carrying
`tokenStart` and `tokenEnd`. Each iteration processes
`line[tokenStart]`, emits at most one token, and then runs
`tokenStart = tokenEnd; tokenEnd += 1`. Tokens are emitted in order
(Python appends to the shared token list). -/
def scanLineLoop : Nat → List Char → Nat → Nat → Nat → List Token
  | 0, _, _, _, _ => []
  | fuel + 1, line, ln, tokenStart, tokenEnd =>
    match line.get? tokenStart with
    | none => []
    | some c =>
      if c = '(' then
        ⟨TokenType.LEFT_PAREN, "(", ln⟩ :: scanLineLoop fuel line ln tokenEnd (tokenEnd + 1)
      else if c = ')' then
        ⟨TokenType.RIGHT_PAREN, ")", ln⟩ :: scanLineLoop fuel line ln tokenEnd (tokenEnd + 1)
      else if c = ',' then
        ⟨TokenType.COMMA, ",", ln⟩ :: scanLineLoop fuel line ln tokenEnd (tokenEnd + 1)
      else if c = '\n' then
        ⟨TokenType.LINE_END, "\\n", ln⟩ :: scanLineLoop fuel line ln tokenEnd (tokenEnd + 1)
      else if c = ' ' ∨ c = '\t' ∨ c = '\x00' then
        scanLineLoop fuel line ln tokenEnd (tokenEnd + 1)
      else
        let e := tokenEnd + runLen (line.drop tokenEnd)
        ⟨TokenType.STRING, (pySlice line tokenStart e).asString, ln⟩ ::
          scanLineLoop fuel line ln e (e + 1)

/-- Scan one non-blank line with line number `ln`. `tokenEnd` strictly
increases every iteration and the loop stops once
`tokenStart (= previous tokenEnd) ≥ length`, so `length + 2` units of
fuel always suffice. -/
def scanLine (line : List Char) (ln : Nat) : List Token :=
  scanLineLoop (line.length + 2) line ln 0 0

/-- Python file iteration: split the contents into lines, each including
its terminating newline; the last line may lack one; no empty lines are
produced. -/
def splitLinesAux : List Char → List Char → List (List Char)
  | [], acc => if acc.isEmpty then [] else [acc.reverse]
  | c :: rest, acc =>
    if c = '\n' then (acc.reverse ++ ['\n']) :: splitLinesAux rest []
    else splitLinesAux rest (c :: acc)

def splitLines (s : List Char) : List (List Char) :=
  splitLinesAux s []

/-- Per-line dispatch of `scan_file`'s `for index, line in enumerate(file)`
loop: a line whose first character is a newline is skipped entirely
(`if line[0] == "\n": continue`); other lines are scanned with line
number `index + 1`. (Python's file iteration never yields an empty
line, so the `[]` case is unreachable.) -/
def scanLinesFrom : List (List Char) → Nat → List Token
  | [], _ => []
  | line :: rest, idx =>
    (match line with
     | [] => []
     | c :: _ => if c = '\n' then [] else scanLine line (idx + 1)) ++
    scanLinesFrom rest (idx + 1)

/-- `scan_file`, applied to the file contents (the file-open step and its
`OSError` live in `main`, outside the embedded core). -/
def scan_file (contents : String) : TokenList :=
  ⟨scanLinesFrom (splitLines contents.toList) 0, 0⟩

mutual

/-- Fueled body of the mutually recursive `consume_param`: peek (raising
`IndexError` at the end of the stream — the `if param == None` check in
the Python source is dead code, since `peek` raises rather than
returning `None`); if the token is a STRING, consume it, append it, and
look for a comma. -/
def consume_param : Nat → St → PResult (List Token)
  | 0, s => .error (.outOfFuel, s)
  | fuel + 1, s =>
    match s.peek with
    | none => .error (.indexError, s)
    | some param =>
      if param.tokenType = TokenType.STRING then
        match consume_comma fuel (s.advance).2 with
        | .error e => .error e
        | .ok (rest, s2) => .ok (param :: rest, s2)
      else
        .ok ([], s)

/-- Fueled body of `consume_comma`: peek (same `IndexError` caveat); if the
token is a COMMA, consume it and look for another parameter. -/
def consume_comma : Nat → St → PResult (List Token)
  | 0, s => .error (.outOfFuel, s)
  | fuel + 1, s =>
    match s.peek with
    | none => .error (.indexError, s)
    | some comma =>
      if comma.tokenType = TokenType.COMMA then
        consume_param fuel (s.advance).2
      else
        .ok ([], s)

end

/-- `get_complex_command_params`: require `(`, consume the parameter list,
reject an empty list, require `)`. `none` means the Python function
returned `None`. The recursion of `consume_param`/`consume_comma`
advances the cursor at every step, so `tokens.length + 1` fuel always
suffices. -/
def get_complex_command_params (command : Token) (s : St) : PResult (Option (List Token)) :=
  let lparen := (s.advance).1
  let s1 := (s.advance).2
  match lparen with
  | none => .ok (none, print_error (.expectedLeftParen command.line command.lexeme) s1)
  | some lp =>
    if lp.tokenType ≠ TokenType.LEFT_PAREN then
      .ok (none, print_error (.expectedLeftParen command.line command.lexeme) s1)
    else
      match consume_param (s1.tl.tokens.length + 1) s1 with
      | .error e => .error e
      | .ok (params, s2) =>
        if params.length = 0 then
          .ok (none, s2)
        else
          let rparen := (s2.advance).1
          let s3 := (s2.advance).2
          match rparen with
          | none =>
            .ok (none, print_error (.expectedRightParenParameters command.line command.lexeme) s3)
          | some rp =>
            if rp.tokenType ≠ TokenType.RIGHT_PAREN then
              .ok (none, print_error (.expectedRightParenParameters command.line command.lexeme) s3)
            else
              .ok (some params, s3)

/-- `complex_command`: on a `None` parameter list, report "Expected
parameters after command" only when the global `hadError` flag is still
clear (the Python code tests the sticky global flag, not whether this
call just reported); in every case discard the rest of the line. -/
def complex_command (command : Token) (s : St) : PResult (Option (List Token)) :=
  match get_complex_command_params command s with
  | .error e => .error e
  | .ok (params, s1) =>
    match params with
    | none =>
      if s1.hadError then
        .ok (none, s1.skipLine)
      else
        .ok (none, (print_error (.expectedParameters command.line command.lexeme) s1).skipLine)
    | some ps => .ok (some ps, s1.skipLine)

/-- `get_simple_command_param`: require `(`, take the next token — of any
kind — as the parameter, require `)`. -/
def get_simple_command_param (command : Token) (s : St) : PResult (Option Token) :=
  let lparen := (s.advance).1
  let s1 := (s.advance).2
  match lparen with
  | none => .ok (none, print_error (.expectedLeftParen command.line command.lexeme) s1)
  | some lp =>
    if lp.tokenType ≠ TokenType.LEFT_PAREN then
      .ok (none, print_error (.expectedLeftParen command.line command.lexeme) s1)
    else
      let param := (s1.advance).1
      let s2 := (s1.advance).2
      match param with
      | none => .ok (none, s2)
      | some p =>
        let rparen := (s2.advance).1
        let s3 := (s2.advance).2
        match rparen with
        | none =>
          .ok (none, print_error (.expectedRightParenParameter command.line command.lexeme) s3)
        | some rp =>
          if rp.tokenType ≠ TokenType.RIGHT_PAREN then
            .ok (none, print_error (.expectedRightParenParameter command.line command.lexeme) s3)
          else
            .ok (some p, s3)

/-- `simple_command`: same shape as `complex_command` with a single
parameter token. -/
def simple_command (command : Token) (s : St) : PResult (Option Token) :=
  match get_simple_command_param command s with
  | .error e => .error e
  | .ok (param, s1) =>
    match param with
    | none =>
      if s1.hadError then
        .ok (none, s1.skipLine)
      else
        .ok (none, (print_error (.expectedParameter command.line command.lexeme) s1).skipLine)
    | some p => .ok (some p, s1.skipLine)

/-- One simple-command branch of `handle_command`: every such branch of the
Python source is the pattern `param = simple_command(tokenList, command);
if param != None: <apply param>`; `apply` is that branch's body. -/
def simpleSet (command : Token) (s0 : St) (apply : Token → St → St) : PResult Unit :=
  match simple_command command s0 with
  | .error e => .error e
  | .ok (none, s1) => .ok ((), s1)
  | .ok (some param, s1) => .ok ((), apply param s1)

/-- One complex-command branch of `handle_command`: the pattern
`params = complex_command(tokenList, command); if params != None:
for param in params: <append>`; `apply` is that branch's loop body. -/
def complexAdd (command : Token) (s0 : St) (apply : List Token → St → St) : PResult Unit :=
  match complex_command command s0 with
  | .error e => .error e
  | .ok (none, s1) => .ok ((), s1)
  | .ok (some params, s1) => .ok ((), apply params s1)

/-- `handle_command`: advance to the command token and dispatch on its
lexeme. The final `else` branch models
`print_error(... "Unkown command."); tokenList.skip_line(command)`:
`TokenList.skip_line` takes no argument, so passing `command` raises
`TypeError` — after the diagnostic has been printed. -/
def handle_command_go (command : Token) (s0 : St) : PResult Unit :=
  if command.lexeme = "SetProjectName" then
    simpleSet command s0 (fun param s1 =>
      { s1 with info := { s1.info with projectName := param.lexeme } })
  else if command.lexeme = "SetCompiler" then
    simpleSet command s0 (fun param s1 =>
      if param.lexeme ∈ ["gcc", "cl", "clang", "clang-cl"] then
        { s1 with info := { s1.info with compiler := param.lexeme } }
      else print_error (.invalidCompiler param.line param.lexeme) s1)
  else if command.lexeme = "SetLanguageVersion" then
    simpleSet command s0 (fun param s1 =>
      if param.lexeme ∈ ["c89", "c99", "c11", "c17"] then
        { s1 with info := { s1.info with languageVersion := param.lexeme } }
      else print_error (.invalidLanguageVersion param.line param.lexeme) s1)
  else if command.lexeme = "SetTargetArch" then
    simpleSet command s0 (fun param s1 =>
      if param.lexeme ∈ ["32", "64"] then
        { s1 with info := { s1.info with arch := param.lexeme } }
      else print_error (.invalidArchitecture param.line param.lexeme) s1)
  else if command.lexeme = "SetOutputType" then
    simpleSet command s0 (fun param s1 =>
      if param.lexeme ∈ ["shared", "object", "executable"] then
        { s1 with info := { s1.info with outputType := param.lexeme } }
      else print_error (.invalidOutputType param.line param.lexeme) s1)
  else if command.lexeme = "SetBuildType" then
    simpleSet command s0 (fun param s1 =>
      if param.lexeme ∈ ["debug", "release"] then
        { s1 with info := { s1.info with buildType := param.lexeme } }
      else print_error (.invalidBuildType param.line param.lexeme) s1)
  else if command.lexeme = "AddFile" then
    complexAdd command s0 (fun params s1 =>
      { s1 with info := { s1.info with files := s1.info.files ++ params.map Token.lexeme } })
  else if command.lexeme = "AddSourcePath" then
    complexAdd command s0 (fun params s1 =>
      { s1 with info := { s1.info with sourcePaths := s1.info.sourcePaths ++ params.map Token.lexeme } })
  else if command.lexeme = "AddConstant" then
    complexAdd command s0 (fun params s1 =>
      { s1 with info := { s1.info with constants := s1.info.constants ++ params.map Token.lexeme } })
  else if command.lexeme = "AddIncludePath" then
    complexAdd command s0 (fun params s1 =>
      { s1 with info := { s1.info with includePaths := s1.info.includePaths ++ params.map Token.lexeme } })
  else if command.lexeme = "AddLibrary" then
    complexAdd command s0 (fun params s1 =>
      { s1 with info := { s1.info with libraries := s1.info.libraries ++ params.map Token.lexeme } })
  else if command.lexeme = "AddObjectFile" then
    complexAdd command s0 (fun params s1 =>
      { s1 with info := { s1.info with objectFiles := s1.info.objectFiles ++ params.map Token.lexeme } })
  else if command.lexeme = "AddCompilerFlag" then
    complexAdd command s0 (fun params s1 =>
      { s1 with info := { s1.info with compilerFlags := s1.info.compilerFlags ++ params.map Token.lexeme } })
  else if command.lexeme = "AddLinkerFlag" then
    complexAdd command s0 (fun params s1 =>
      { s1 with info := { s1.info with linkerFlags := s1.info.linkerFlags ++ params.map Token.lexeme } })
  else
  .error (.typeError, print_error (.unknownCommand command.line command.lexeme) s0)

/-- `handle_command`: `command = tokenList.advance()` (a `None` result would
make the following attribute access raise `AttributeError`; unreachable
from `parse_tokens`, which peeks first), then the dispatch if-chain
`handle_command_go`. -/
def handle_command (s : St) : PResult Unit :=
  match (s.advance).1 with
  | none => .error (.attributeError, (s.advance).2)
  | some command => handle_command_go command (s.advance).2

/-- Fueled body of the `parse_tokens` loop: while the stream is not
exhausted, peek; a STRING token starts a command, anything else is
reported and the line discarded. -/
def parseLoop : Nat → St → Except (PyError × St) St
  | 0, s => .error (.outOfFuel, s)
  | fuel + 1, s =>
    if s.tl.is_at_end then .ok s
    else
      match s.peek with
      | none => .error (.indexError, s)
      | some token =>
        if token.tokenType = TokenType.STRING then
          match handle_command s with
          | .error e => .error e
          | .ok (_, s1) => parseLoop fuel s1
        else
          parseLoop fuel ((print_error (.commandsMustBeginWithString token.line token.lexeme) s).skipLine)

/-- `parse_tokens`: run the loop on a fresh `CompileInfo` with the global
`hadError` flag clear. Every loop iteration advances the cursor by at
least one and the loop exits once the cursor reaches the length, so
`tokens.length + 1` fuel always suffices. -/
def parse_tokens (tl : TokenList) : Except (PyError × St) St :=
  parseLoop (tl.tokens.length + 1) ⟨tl, CompileInfo.init, false, []⟩

/-- State observed at the end of a run, whether it finished normally or
was aborted by an exception. -/
def finalSt : Except (PyError × St) St → St
  | .ok s => s
  | .error e => e.2

/-- State carried by a `PResult`, in both the normal and the raising case. -/
def pSt {α : Type} : PResult α → St
  | .ok x => x.2
  | .error e => e.2

/-- The legality invariant of the enumerated scalar fields of
`CompileInfo`: each holds one of the values its `SetX` command accepts. -/
def scalarsLegal (c : CompileInfo) : Prop :=
  c.compiler ∈ ["gcc", "cl", "clang", "clang-cl"] ∧
  c.languageVersion ∈ ["c89", "c99", "c11", "c17"] ∧
  c.arch ∈ ["32", "64"] ∧
  c.outputType ∈ ["shared", "object", "executable"] ∧
  c.buildType ∈ ["debug", "release"]

/-- Helper for stating the duplicated-punctuation claim: the token the
scanner emits for a punctuation character. -/
def punctToken (c : Char) (ln : Nat) : Token :=
  if c = '(' then ⟨TokenType.LEFT_PAREN, "(", ln⟩
  else if c = ')' then ⟨TokenType.RIGHT_PAREN, ")", ln⟩
  else ⟨TokenType.COMMA, ",", ln⟩

/-- Statement helper: the token sequence of one simple command line
`name(v)` as the scanner produces it for a line-1 command. -/
def setCmdTokens (name v : String) : List Token :=
  [⟨TokenType.STRING, name, 1⟩, ⟨TokenType.LEFT_PAREN, "(", 1⟩, ⟨TokenType.STRING, v, 1⟩,
   ⟨TokenType.RIGHT_PAREN, ")", 1⟩, ⟨TokenType.LINE_END, "\\n", 1⟩]

/-- Statement helper: the token sequence of the two-line input
`name(a, b, c)` then `name(d, e)`. -/
def addCmdTokens (name a b c d e : String) : List Token :=
  [⟨TokenType.STRING, name, 1⟩, ⟨TokenType.LEFT_PAREN, "(", 1⟩,
   ⟨TokenType.STRING, a, 1⟩, ⟨TokenType.COMMA, ",", 1⟩, ⟨TokenType.STRING, b, 1⟩,
   ⟨TokenType.COMMA, ",", 1⟩, ⟨TokenType.STRING, c, 1⟩, ⟨TokenType.RIGHT_PAREN, ")", 1⟩,
   ⟨TokenType.LINE_END, "\\n", 1⟩,
   ⟨TokenType.STRING, name, 2⟩, ⟨TokenType.LEFT_PAREN, "(", 2⟩,
   ⟨TokenType.STRING, d, 2⟩, ⟨TokenType.COMMA, ",", 2⟩, ⟨TokenType.STRING, e, 2⟩,
   ⟨TokenType.RIGHT_PAREN, ")", 2⟩, ⟨TokenType.LINE_END, "\\n", 2⟩]

/-- Statement helper: the token sequence of the two-line input
`name(good)` then `name(v)` (a legal set followed by another set). -/
def setTwiceTokens (name good v : String) : List Token :=
  [⟨TokenType.STRING, name, 1⟩, ⟨TokenType.LEFT_PAREN, "(", 1⟩, ⟨TokenType.STRING, good, 1⟩,
   ⟨TokenType.RIGHT_PAREN, ")", 1⟩, ⟨TokenType.LINE_END, "\\n", 1⟩,
   ⟨TokenType.STRING, name, 2⟩, ⟨TokenType.LEFT_PAREN, "(", 2⟩, ⟨TokenType.STRING, v, 2⟩,
   ⟨TokenType.RIGHT_PAREN, ")", 2⟩, ⟨TokenType.LINE_END, "\\n", 2⟩]

end Oat

namespace Oat

/-- C1: For the input file `Foo(bar)\n` (a single line whose command name is
not in the command table), parsing does NOT complete: the "unknown command"
diagnostic is reported and the error flag set, but the recovery call
`tokenList.skip_line(command)` passes an argument to the zero-argument
`skip_line`, so the run aborts with a `TypeError` while the configuration is
still at its defaults. -/
theorem unknownCommand_crashes_with_typeError :
    parse_tokens (scan_file "Foo(bar)\n") =
      .error (PyError.typeError,
        { tl := ⟨[⟨TokenType.STRING, "Foo", 1⟩, ⟨TokenType.LEFT_PAREN, "(", 1⟩,
                  ⟨TokenType.STRING, "bar", 1⟩, ⟨TokenType.RIGHT_PAREN, ")", 1⟩,
                  ⟨TokenType.LINE_END, "\\n", 1⟩], 1⟩,
          info := CompileInfo.init,
          hadError := true,
          diags := [Diag.unknownCommand 1 "Foo"] }) := by
  rfl

/-- C2: Parsing does not always run to completion: for the input file
`AddFile(a` (ending inside a command, with no LINE_END token), the
parameter-consuming routines read the token stream out of bounds —
`consume_comma` peeks past the last token and the run aborts with an
`IndexError` before any error can be reported. -/
theorem unterminated_command_peek_raises_indexError :
    parse_tokens (scan_file "AddFile(a") =
      .error (PyError.indexError,
        { tl := ⟨[⟨TokenType.STRING, "AddFile", 1⟩, ⟨TokenType.LEFT_PAREN, "(", 1⟩,
                  ⟨TokenType.STRING, "a", 1⟩], 3⟩,
          info := CompileInfo.init,
          hadError := false,
          diags := [] }) := by
  rfl

/-- C3: A run does not surface all of a file's errors: for the two
malformed lines `Foo(a)\nSetCompiler(msvc)\n`, the first line's "unknown
command" error is recorded with its diagnostic, but the recovery call
`skip_line(command)` raises `TypeError`, so parsing never resumes and the
second line's invalid-compiler error is never reported. -/
theorem first_malformed_line_crash_hides_later_errors :
    parse_tokens (scan_file "Foo(a)\nSetCompiler(msvc)\n") =
      .error (PyError.typeError,
        { tl := ⟨[⟨TokenType.STRING, "Foo", 1⟩, ⟨TokenType.LEFT_PAREN, "(", 1⟩,
                  ⟨TokenType.STRING, "a", 1⟩, ⟨TokenType.RIGHT_PAREN, ")", 1⟩,
                  ⟨TokenType.LINE_END, "\\n", 1⟩,
                  ⟨TokenType.STRING, "SetCompiler", 2⟩, ⟨TokenType.LEFT_PAREN, "(", 2⟩,
                  ⟨TokenType.STRING, "msvc", 2⟩, ⟨TokenType.RIGHT_PAREN, ")", 2⟩,
                  ⟨TokenType.LINE_END, "\\n", 2⟩], 1⟩,
          info := CompileInfo.init,
          hadError := true,
          diags := [Diag.unknownCommand 1 "Foo"] }) := by
  rfl

end Oat

namespace Oat

/-- C9: For a simple command, the single token between the parentheses is
accepted whatever its kind: its lexeme becomes the parameter value with no
check that it is a STRING token, and in particular the full pipeline on
`SetProjectName(,)\n` sets projectName to "," and records no error. -/
theorem simple_param_accepted_regardless_of_kind :
    (∀ t : Token,
      parse_tokens ⟨[⟨TokenType.STRING, "SetProjectName", 1⟩, ⟨TokenType.LEFT_PAREN, "(", 1⟩,
                     t, ⟨TokenType.RIGHT_PAREN, ")", 1⟩, ⟨TokenType.LINE_END, "\\n", 1⟩], 0⟩ =
        .ok { tl := ⟨[⟨TokenType.STRING, "SetProjectName", 1⟩, ⟨TokenType.LEFT_PAREN, "(", 1⟩,
                      t, ⟨TokenType.RIGHT_PAREN, ")", 1⟩, ⟨TokenType.LINE_END, "\\n", 1⟩], 5⟩,
              info := { CompileInfo.init with projectName := t.lexeme },
              hadError := false, diags := [] })
    ∧ parse_tokens (scan_file "SetProjectName(,)\n") =
        .ok { tl := ⟨[⟨TokenType.STRING, "SetProjectName", 1⟩, ⟨TokenType.LEFT_PAREN, "(", 1⟩,
                      ⟨TokenType.COMMA, ",", 1⟩, ⟨TokenType.RIGHT_PAREN, ")", 1⟩,
                      ⟨TokenType.LINE_END, "\\n", 1⟩], 5⟩,
              info := { CompileInfo.init with projectName := "," },
              hadError := false, diags := [] } :=
  ⟨fun _ => rfl, rfl⟩

/-- Witness for C9 at the concrete non-STRING parameter token
`⟨LINE_END, "\n", 7⟩`. -/
theorem simple_param_accepted_regardless_of_kind_witness :
    parse_tokens ⟨[⟨TokenType.STRING, "SetProjectName", 1⟩, ⟨TokenType.LEFT_PAREN, "(", 1⟩,
                   ⟨TokenType.LINE_END, "\\n", 7⟩, ⟨TokenType.RIGHT_PAREN, ")", 1⟩,
                   ⟨TokenType.LINE_END, "\\n", 1⟩], 0⟩ =
      .ok { tl := ⟨[⟨TokenType.STRING, "SetProjectName", 1⟩, ⟨TokenType.LEFT_PAREN, "(", 1⟩,
                    ⟨TokenType.LINE_END, "\\n", 7⟩, ⟨TokenType.RIGHT_PAREN, ")", 1⟩,
                    ⟨TokenType.LINE_END, "\\n", 1⟩], 5⟩,
            info := { CompileInfo.init with projectName := "\\n" },
            hadError := false, diags := [] } :=
  simple_param_accepted_regardless_of_kind.1 ⟨TokenType.LINE_END, "\\n", 7⟩

/-- C4: Every simple command with a legal value sets the corresponding
scalar field to that value and records no error: `SetProjectName` at the
token level for an arbitrary value, and, through the full scan-and-parse
pipeline, each enumerated setter for every value of its legal set. -/
theorem simple_command_legal_value_sets_field :
    (∀ v : String,
      parse_tokens ⟨setCmdTokens "SetProjectName" v, 0⟩ =
        .ok { tl := ⟨setCmdTokens "SetProjectName" v, 5⟩,
              info := { CompileInfo.init with projectName := v },
              hadError := false, diags := [] })
    ∧ (∀ v ∈ (["gcc", "cl", "clang", "clang-cl"] : List String),
        parse_tokens (scan_file ("SetCompiler(" ++ v ++ ")\n")) =
          .ok { tl := ⟨setCmdTokens "SetCompiler" v, 5⟩,
                info := { CompileInfo.init with compiler := v },
                hadError := false, diags := [] })
    ∧ (∀ v ∈ (["c89", "c99", "c11", "c17"] : List String),
        parse_tokens (scan_file ("SetLanguageVersion(" ++ v ++ ")\n")) =
          .ok { tl := ⟨setCmdTokens "SetLanguageVersion" v, 5⟩,
                info := { CompileInfo.init with languageVersion := v },
                hadError := false, diags := [] })
    ∧ (∀ v ∈ (["32", "64"] : List String),
        parse_tokens (scan_file ("SetTargetArch(" ++ v ++ ")\n")) =
          .ok { tl := ⟨setCmdTokens "SetTargetArch" v, 5⟩,
                info := { CompileInfo.init with arch := v },
                hadError := false, diags := [] })
    ∧ (∀ v ∈ (["shared", "object", "executable"] : List String),
        parse_tokens (scan_file ("SetOutputType(" ++ v ++ ")\n")) =
          .ok { tl := ⟨setCmdTokens "SetOutputType" v, 5⟩,
                info := { CompileInfo.init with outputType := v },
                hadError := false, diags := [] })
    ∧ (∀ v ∈ (["debug", "release"] : List String),
        parse_tokens (scan_file ("SetBuildType(" ++ v ++ ")\n")) =
          .ok { tl := ⟨setCmdTokens "SetBuildType" v, 5⟩,
                info := { CompileInfo.init with buildType := v },
                hadError := false, diags := [] }) := by
  refine ⟨fun v => rfl, ?_, ?_, ?_, ?_, ?_⟩ <;>
    (intro v hv; fin_cases hv <;> rfl)

/-- Witness for C4 at the concrete inputs `SetProjectName` with value
"app" and `SetCompiler(clang)\n`. -/
theorem simple_command_legal_value_sets_field_witness :
    parse_tokens ⟨setCmdTokens "SetProjectName" "app", 0⟩ =
        .ok { tl := ⟨setCmdTokens "SetProjectName" "app", 5⟩,
              info := { CompileInfo.init with projectName := "app" },
              hadError := false, diags := [] }
    ∧ parse_tokens (scan_file "SetCompiler(clang)\n") =
        .ok { tl := ⟨setCmdTokens "SetCompiler" "clang", 5⟩,
              info := { CompileInfo.init with compiler := "clang" },
              hadError := false, diags := [] } :=
  ⟨simple_command_legal_value_sets_field.1 "app",
   simple_command_legal_value_sets_field.2.1 "clang" (by decide)⟩

/-- C5: Every complex command appends its parameters, in source order, to
the end of the corresponding list field, and a repeated command appends
again rather than replacing: for each `AddX`, the two-line input
`AddX(a, b, c)` then `AddX(d, e)` leaves the list field exactly
`[a, b, c, d, e]` (so each line grew the list by exactly its parameter
count) with no error recorded. -/
theorem complex_command_appends_in_order :
    (∀ a b c d e : String,
      parse_tokens ⟨addCmdTokens "AddFile" a b c d e, 0⟩ =
        .ok { tl := ⟨addCmdTokens "AddFile" a b c d e, 16⟩,
              info := { CompileInfo.init with files := [a, b, c, d, e] },
              hadError := false, diags := [] })
    ∧ (∀ a b c d e : String,
      parse_tokens ⟨addCmdTokens "AddSourcePath" a b c d e, 0⟩ =
        .ok { tl := ⟨addCmdTokens "AddSourcePath" a b c d e, 16⟩,
              info := { CompileInfo.init with sourcePaths := [a, b, c, d, e] },
              hadError := false, diags := [] })
    ∧ (∀ a b c d e : String,
      parse_tokens ⟨addCmdTokens "AddConstant" a b c d e, 0⟩ =
        .ok { tl := ⟨addCmdTokens "AddConstant" a b c d e, 16⟩,
              info := { CompileInfo.init with constants := [a, b, c, d, e] },
              hadError := false, diags := [] })
    ∧ (∀ a b c d e : String,
      parse_tokens ⟨addCmdTokens "AddIncludePath" a b c d e, 0⟩ =
        .ok { tl := ⟨addCmdTokens "AddIncludePath" a b c d e, 16⟩,
              info := { CompileInfo.init with includePaths := [a, b, c, d, e] },
              hadError := false, diags := [] })
    ∧ (∀ a b c d e : String,
      parse_tokens ⟨addCmdTokens "AddLibrary" a b c d e, 0⟩ =
        .ok { tl := ⟨addCmdTokens "AddLibrary" a b c d e, 16⟩,
              info := { CompileInfo.init with libraries := [a, b, c, d, e] },
              hadError := false, diags := [] })
    ∧ (∀ a b c d e : String,
      parse_tokens ⟨addCmdTokens "AddObjectFile" a b c d e, 0⟩ =
        .ok { tl := ⟨addCmdTokens "AddObjectFile" a b c d e, 16⟩,
              info := { CompileInfo.init with objectFiles := [a, b, c, d, e] },
              hadError := false, diags := [] })
    ∧ (∀ a b c d e : String,
      parse_tokens ⟨addCmdTokens "AddCompilerFlag" a b c d e, 0⟩ =
        .ok { tl := ⟨addCmdTokens "AddCompilerFlag" a b c d e, 16⟩,
              info := { CompileInfo.init with compilerFlags := [a, b, c, d, e] },
              hadError := false, diags := [] })
    ∧ (∀ a b c d e : String,
      parse_tokens ⟨addCmdTokens "AddLinkerFlag" a b c d e, 0⟩ =
        .ok { tl := ⟨addCmdTokens "AddLinkerFlag" a b c d e, 16⟩,
              info := { CompileInfo.init with linkerFlags := [a, b, c, d, e] },
              hadError := false, diags := [] }) :=
  ⟨fun _ _ _ _ _ => rfl, fun _ _ _ _ _ => rfl, fun _ _ _ _ _ => rfl, fun _ _ _ _ _ => rfl,
   fun _ _ _ _ _ => rfl, fun _ _ _ _ _ => rfl, fun _ _ _ _ _ => rfl, fun _ _ _ _ _ => rfl⟩

/-- Witness for C5 at concrete parameters, exercising `AddFile` with
duplicates preserved. -/
theorem complex_command_appends_in_order_witness :
    parse_tokens ⟨addCmdTokens "AddFile" "a.c" "b.c" "a.c" "d.c" "e.c", 0⟩ =
      .ok { tl := ⟨addCmdTokens "AddFile" "a.c" "b.c" "a.c" "d.c" "e.c", 16⟩,
            info := { CompileInfo.init with files := ["a.c", "b.c", "a.c", "d.c", "e.c"] },
            hadError := false, diags := [] } :=
  complex_command_appends_in_order.1 "a.c" "b.c" "a.c" "d.c" "e.c"

end Oat

namespace Oat

/-- The parameter-consuming routines only move the cursor: they never touch
the `CompileInfo` (in both the normal and the raising outcome). -/
theorem consume_info (fuel : Nat) :
    (∀ s : St, (pSt (consume_param fuel s)).info = s.info) ∧
    (∀ s : St, (pSt (consume_comma fuel s)).info = s.info) := by
  induction fuel with
  | zero => exact ⟨fun _ => rfl, fun _ => rfl⟩
  | succ n ih =>
    constructor
    · intro s
      simp only [consume_param]
      cases hp : s.peek with
      | none => rfl
      | some param =>
        by_cases ht : param.tokenType = TokenType.STRING
        · simp only [ht, if_true]
          cases hc : consume_comma n (s.advance).2 with
          | error e =>
            have h2 := ih.2 (s.advance).2
            rw [hc] at h2
            exact h2
          | ok p =>
            have h2 := ih.2 (s.advance).2
            rw [hc] at h2
            exact h2
        · simp only [ht, if_false]
          rfl
    · intro s
      simp only [consume_comma]
      cases hp : s.peek with
      | none => rfl
      | some comma =>
        by_cases ht : comma.tokenType = TokenType.COMMA
        · simp only [ht, if_true]
          have h2 := ih.1 (s.advance).2
          exact h2
        · simp only [ht, if_false]
          rfl

/-- `get_simple_command_param` never touches the `CompileInfo`. -/
theorem get_simple_info (c : Token) (s : St) :
    (pSt (get_simple_command_param c s)).info = s.info := by
  simp only [get_simple_command_param]
  repeat' split
  all_goals rfl

/-- `get_complex_command_params` never touches the `CompileInfo`. -/
theorem get_complex_info (c : Token) (s : St) :
    (pSt (get_complex_command_params c s)).info = s.info := by
  simp only [get_complex_command_params]
  split
  · rfl
  · split
    · rfl
    · cases hc : consume_param (((s.advance).2).tl.tokens.length + 1) (s.advance).2 with
      | error e =>
        have h2 := (consume_info (((s.advance).2).tl.tokens.length + 1)).1 (s.advance).2
        rw [hc] at h2
        exact h2
      | ok p =>
        have h2 := (consume_info (((s.advance).2).tl.tokens.length + 1)).1 (s.advance).2
        rw [hc] at h2
        obtain ⟨params, s2⟩ := p
        simp only
        repeat' split
        all_goals exact h2

end Oat

namespace Oat

/-- `simple_command` never touches the `CompileInfo`. -/
theorem simple_command_info (c : Token) (s : St) :
    (pSt (simple_command c s)).info = s.info := by
  simp only [simple_command]
  cases hg : get_simple_command_param c s with
  | error e =>
    have h2 := get_simple_info c s
    rw [hg] at h2
    exact h2
  | ok p =>
    have h2 := get_simple_info c s
    rw [hg] at h2
    obtain ⟨param, s1⟩ := p
    cases param with
    | none =>
      simp only
      split
      · exact h2
      · exact h2
    | some t => exact h2

/-- `complex_command` never touches the `CompileInfo`. -/
theorem complex_command_info (c : Token) (s : St) :
    (pSt (complex_command c s)).info = s.info := by
  simp only [complex_command]
  cases hg : get_complex_command_params c s with
  | error e =>
    have h2 := get_complex_info c s
    rw [hg] at h2
    exact h2
  | ok p =>
    have h2 := get_complex_info c s
    rw [hg] at h2
    obtain ⟨params, s1⟩ := p
    cases params with
    | none =>
      simp only
      split
      · exact h2
      · exact h2
    | some ps => exact h2

/-- Hypothesis-friendly corollaries of the info-preservation lemmas. -/
theorem simple_command_info_ok {c : Token} {s : St} {x : Option Token} {s1 : St}
    (h : simple_command c s = .ok (x, s1)) : s1.info = s.info := by
  have h2 := simple_command_info c s
  rw [h] at h2
  exact h2

theorem simple_command_info_err {c : Token} {s : St} {e : PyError × St}
    (h : simple_command c s = .error e) : e.2.info = s.info := by
  have h2 := simple_command_info c s
  rw [h] at h2
  exact h2

theorem complex_command_info_ok {c : Token} {s : St} {x : Option (List Token)} {s1 : St}
    (h : complex_command c s = .ok (x, s1)) : s1.info = s.info := by
  have h2 := complex_command_info c s
  rw [h] at h2
  exact h2

theorem complex_command_info_err {c : Token} {s : St} {e : PyError × St}
    (h : complex_command c s = .error e) : e.2.info = s.info := by
  have h2 := complex_command_info c s
  rw [h] at h2
  exact h2

end Oat

namespace Oat

/-- Transport of the scalar-legality invariant along an equality of
configurations. -/
theorem scalars_of_eq {a b : CompileInfo} (hab : a = b) (hb : scalarsLegal b) :
    scalarsLegal a := by
  rw [hab]
  exact hb

/-- A simple-command branch preserves scalar legality whenever its body
does. -/
theorem simpleSet_scalars (command : Token) (s0 : St) (apply : Token → St → St)
    (h0 : scalarsLegal s0.info)
    (happly : ∀ t s1, s1.info = s0.info → scalarsLegal (apply t s1).info) :
    scalarsLegal (pSt (simpleSet command s0 apply)).info := by
  unfold simpleSet
  cases hr : simple_command command s0 with
  | error e => exact scalars_of_eq (simple_command_info_err hr) h0
  | ok p =>
    obtain ⟨param, s1⟩ := p
    cases param with
    | none => exact scalars_of_eq (simple_command_info_ok hr) h0
    | some t => exact happly t s1 (simple_command_info_ok hr)

/-- A complex-command branch preserves scalar legality whenever its body
does. -/
theorem complexAdd_scalars (command : Token) (s0 : St) (apply : List Token → St → St)
    (h0 : scalarsLegal s0.info)
    (happly : ∀ ps s1, s1.info = s0.info → scalarsLegal (apply ps s1).info) :
    scalarsLegal (pSt (complexAdd command s0 apply)).info := by
  unfold complexAdd
  cases hr : complex_command command s0 with
  | error e => exact scalars_of_eq (complex_command_info_err hr) h0
  | ok p =>
    obtain ⟨params, s1⟩ := p
    cases params with
    | none => exact scalars_of_eq (complex_command_info_ok hr) h0
    | some ps => exact happly ps s1 (complex_command_info_ok hr)

/-- The dispatch if-chain preserves the legality of the enumerated scalar
fields: setters only store values they have just checked against the
field's legal set, and every other branch leaves the scalars alone. -/
theorem handle_command_go_scalars (command : Token) (s0 : St)
    (h0 : scalarsLegal s0.info) :
    scalarsLegal (pSt (handle_command_go command s0)).info := by
  delta handle_command_go
  by_cases h1 : command.lexeme = "SetProjectName"
  · rw [if_pos h1]
    refine simpleSet_scalars _ _ _ h0 (fun t s1 hi => ?_)
    have hb : scalarsLegal s1.info := scalars_of_eq hi h0
    exact hb
  rw [if_neg h1]
  by_cases h2 : command.lexeme = "SetCompiler"
  · rw [if_pos h2]
    refine simpleSet_scalars _ _ _ h0 (fun t s1 hi => ?_)
    have hb : scalarsLegal s1.info := scalars_of_eq hi h0
    by_cases hm : t.lexeme ∈ (["gcc", "cl", "clang", "clang-cl"] : List String)
    · rw [if_pos hm]
      exact ⟨hm, hb.2.1, hb.2.2.1, hb.2.2.2.1, hb.2.2.2.2⟩
    · rw [if_neg hm]
      exact hb
  rw [if_neg h2]
  by_cases h3 : command.lexeme = "SetLanguageVersion"
  · rw [if_pos h3]
    refine simpleSet_scalars _ _ _ h0 (fun t s1 hi => ?_)
    have hb : scalarsLegal s1.info := scalars_of_eq hi h0
    by_cases hm : t.lexeme ∈ (["c89", "c99", "c11", "c17"] : List String)
    · rw [if_pos hm]
      exact ⟨hb.1, hm, hb.2.2.1, hb.2.2.2.1, hb.2.2.2.2⟩
    · rw [if_neg hm]
      exact hb
  rw [if_neg h3]
  by_cases h4 : command.lexeme = "SetTargetArch"
  · rw [if_pos h4]
    refine simpleSet_scalars _ _ _ h0 (fun t s1 hi => ?_)
    have hb : scalarsLegal s1.info := scalars_of_eq hi h0
    by_cases hm : t.lexeme ∈ (["32", "64"] : List String)
    · rw [if_pos hm]
      exact ⟨hb.1, hb.2.1, hm, hb.2.2.2.1, hb.2.2.2.2⟩
    · rw [if_neg hm]
      exact hb
  rw [if_neg h4]
  by_cases h5 : command.lexeme = "SetOutputType"
  · rw [if_pos h5]
    refine simpleSet_scalars _ _ _ h0 (fun t s1 hi => ?_)
    have hb : scalarsLegal s1.info := scalars_of_eq hi h0
    by_cases hm : t.lexeme ∈ (["shared", "object", "executable"] : List String)
    · rw [if_pos hm]
      exact ⟨hb.1, hb.2.1, hb.2.2.1, hm, hb.2.2.2.2⟩
    · rw [if_neg hm]
      exact hb
  rw [if_neg h5]
  by_cases h6 : command.lexeme = "SetBuildType"
  · rw [if_pos h6]
    refine simpleSet_scalars _ _ _ h0 (fun t s1 hi => ?_)
    have hb : scalarsLegal s1.info := scalars_of_eq hi h0
    by_cases hm : t.lexeme ∈ (["debug", "release"] : List String)
    · rw [if_pos hm]
      exact ⟨hb.1, hb.2.1, hb.2.2.1, hb.2.2.2.1, hm⟩
    · rw [if_neg hm]
      exact hb
  rw [if_neg h6]
  by_cases h7 : command.lexeme = "AddFile"
  · rw [if_pos h7]
    refine complexAdd_scalars _ _ _ h0 (fun ps s1 hi => ?_)
    have hb : scalarsLegal s1.info := scalars_of_eq hi h0
    exact hb
  rw [if_neg h7]
  by_cases h8 : command.lexeme = "AddSourcePath"
  · rw [if_pos h8]
    refine complexAdd_scalars _ _ _ h0 (fun ps s1 hi => ?_)
    have hb : scalarsLegal s1.info := scalars_of_eq hi h0
    exact hb
  rw [if_neg h8]
  by_cases h9 : command.lexeme = "AddConstant"
  · rw [if_pos h9]
    refine complexAdd_scalars _ _ _ h0 (fun ps s1 hi => ?_)
    have hb : scalarsLegal s1.info := scalars_of_eq hi h0
    exact hb
  rw [if_neg h9]
  by_cases h10 : command.lexeme = "AddIncludePath"
  · rw [if_pos h10]
    refine complexAdd_scalars _ _ _ h0 (fun ps s1 hi => ?_)
    have hb : scalarsLegal s1.info := scalars_of_eq hi h0
    exact hb
  rw [if_neg h10]
  by_cases h11 : command.lexeme = "AddLibrary"
  · rw [if_pos h11]
    refine complexAdd_scalars _ _ _ h0 (fun ps s1 hi => ?_)
    have hb : scalarsLegal s1.info := scalars_of_eq hi h0
    exact hb
  rw [if_neg h11]
  by_cases h12 : command.lexeme = "AddObjectFile"
  · rw [if_pos h12]
    refine complexAdd_scalars _ _ _ h0 (fun ps s1 hi => ?_)
    have hb : scalarsLegal s1.info := scalars_of_eq hi h0
    exact hb
  rw [if_neg h12]
  by_cases h13 : command.lexeme = "AddCompilerFlag"
  · rw [if_pos h13]
    refine complexAdd_scalars _ _ _ h0 (fun ps s1 hi => ?_)
    have hb : scalarsLegal s1.info := scalars_of_eq hi h0
    exact hb
  rw [if_neg h13]
  by_cases h14 : command.lexeme = "AddLinkerFlag"
  · rw [if_pos h14]
    refine complexAdd_scalars _ _ _ h0 (fun ps s1 hi => ?_)
    have hb : scalarsLegal s1.info := scalars_of_eq hi h0
    exact hb
  rw [if_neg h14]
  exact h0

/-- `handle_command` preserves the legality of the enumerated scalar
fields. -/
theorem handle_command_scalars (s : St) (h : scalarsLegal s.info) :
    scalarsLegal (pSt (handle_command s)).info := by
  simp only [handle_command]
  cases hcmd : (s.advance).1 with
  | none => exact h
  | some command => exact handle_command_go_scalars command ((s.advance).2) h

end Oat

namespace Oat

/-- The parse loop preserves the legality of the enumerated scalar fields,
whatever the outcome (normal completion, any raised exception, or the
unreachable fuel exhaustion). -/
theorem parseLoop_scalars : ∀ (fuel : Nat) (s : St), scalarsLegal s.info →
    scalarsLegal (finalSt (parseLoop fuel s)).info := by
  intro fuel
  induction fuel with
  | zero => intro s h; exact h
  | succ n ih =>
    intro s h
    rw [parseLoop]
    by_cases hend : s.tl.is_at_end
    · rw [if_pos hend]
      exact h
    · rw [if_neg hend]
      cases hp : s.peek with
      | none => exact h
      | some token =>
        dsimp only
        by_cases ht : token.tokenType = TokenType.STRING
        · rw [if_pos ht]
          cases hh : handle_command s with
          | error e =>
            have hsc := handle_command_scalars s h
            rw [hh] at hsc
            exact hsc
          | ok p =>
            have hsc := handle_command_scalars s h
            rw [hh] at hsc
            exact ih p.2 hsc
        · rw [if_neg ht]
          exact ih _ h

/-- C6: (i) Through the parser, each enumerated `SetX(illegalValue)` leaves
the whole configuration unchanged (at its defaults, or, for the two-line
compiler input, at the previously set legal value) while setting the error
flag and recording the field's invalid-value diagnostic; (ii) invariantly,
after parsing any token sequence whatsoever, every enumerated scalar field
of the configuration holds one of its legal values. -/
theorem illegal_value_keeps_field_and_sets_error :
    (∀ v : String, v ∉ (["gcc", "cl", "clang", "clang-cl"] : List String) →
      parse_tokens ⟨setCmdTokens "SetCompiler" v, 0⟩ =
        .ok { tl := ⟨setCmdTokens "SetCompiler" v, 5⟩, info := CompileInfo.init,
              hadError := true, diags := [Diag.invalidCompiler 1 v] })
    ∧ (∀ v : String, v ∉ (["c89", "c99", "c11", "c17"] : List String) →
      parse_tokens ⟨setCmdTokens "SetLanguageVersion" v, 0⟩ =
        .ok { tl := ⟨setCmdTokens "SetLanguageVersion" v, 5⟩, info := CompileInfo.init,
              hadError := true, diags := [Diag.invalidLanguageVersion 1 v] })
    ∧ (∀ v : String, v ∉ (["32", "64"] : List String) →
      parse_tokens ⟨setCmdTokens "SetTargetArch" v, 0⟩ =
        .ok { tl := ⟨setCmdTokens "SetTargetArch" v, 5⟩, info := CompileInfo.init,
              hadError := true, diags := [Diag.invalidArchitecture 1 v] })
    ∧ (∀ v : String, v ∉ (["shared", "object", "executable"] : List String) →
      parse_tokens ⟨setCmdTokens "SetOutputType" v, 0⟩ =
        .ok { tl := ⟨setCmdTokens "SetOutputType" v, 5⟩, info := CompileInfo.init,
              hadError := true, diags := [Diag.invalidOutputType 1 v] })
    ∧ (∀ v : String, v ∉ (["debug", "release"] : List String) →
      parse_tokens ⟨setCmdTokens "SetBuildType" v, 0⟩ =
        .ok { tl := ⟨setCmdTokens "SetBuildType" v, 5⟩, info := CompileInfo.init,
              hadError := true, diags := [Diag.invalidBuildType 1 v] })
    ∧ (∀ v : String, v ∉ (["gcc", "cl", "clang", "clang-cl"] : List String) →
      parse_tokens ⟨setTwiceTokens "SetCompiler" "clang" v, 0⟩ =
        .ok { tl := ⟨setTwiceTokens "SetCompiler" "clang" v, 10⟩,
              info := { CompileInfo.init with compiler := "clang" },
              hadError := true, diags := [Diag.invalidCompiler 2 v] })
    ∧ (∀ tl : TokenList, scalarsLegal (finalSt (parse_tokens tl)).info) := by
  refine ⟨?_, ?_, ?_, ?_, ?_, ?_, ?_⟩
  · intro v hv
    simp [parse_tokens, parseLoop, handle_command, handle_command_go, simpleSet,
          simple_command, get_simple_command_param, St.advance, TokenList.advance,
          St.peek, TokenList.peek, TokenList.is_at_end, St.skipLine, TokenList.skip_line,
          skipLineFuel, print_error, setCmdTokens, hv]
  · intro v hv
    simp [parse_tokens, parseLoop, handle_command, handle_command_go, simpleSet,
          simple_command, get_simple_command_param, St.advance, TokenList.advance,
          St.peek, TokenList.peek, TokenList.is_at_end, St.skipLine, TokenList.skip_line,
          skipLineFuel, print_error, setCmdTokens, hv]
  · intro v hv
    simp [parse_tokens, parseLoop, handle_command, handle_command_go, simpleSet,
          simple_command, get_simple_command_param, St.advance, TokenList.advance,
          St.peek, TokenList.peek, TokenList.is_at_end, St.skipLine, TokenList.skip_line,
          skipLineFuel, print_error, setCmdTokens, hv]
  · intro v hv
    simp [parse_tokens, parseLoop, handle_command, handle_command_go, simpleSet,
          simple_command, get_simple_command_param, St.advance, TokenList.advance,
          St.peek, TokenList.peek, TokenList.is_at_end, St.skipLine, TokenList.skip_line,
          skipLineFuel, print_error, setCmdTokens, hv]
  · intro v hv
    simp [parse_tokens, parseLoop, handle_command, handle_command_go, simpleSet,
          simple_command, get_simple_command_param, St.advance, TokenList.advance,
          St.peek, TokenList.peek, TokenList.is_at_end, St.skipLine, TokenList.skip_line,
          skipLineFuel, print_error, setCmdTokens, hv]
  · intro v hv
    simp [parse_tokens, parseLoop, handle_command, handle_command_go, simpleSet,
          simple_command, get_simple_command_param, St.advance, TokenList.advance,
          St.peek, TokenList.peek, TokenList.is_at_end, St.skipLine, TokenList.skip_line,
          skipLineFuel, print_error, setTwiceTokens, hv]
  · intro tl
    exact parseLoop_scalars _ _ (by constructor <;> simp [CompileInfo.init])

/-- Witness for C6 at the concrete illegal value "msvc" and for the
invariant at the empty token list. -/
theorem illegal_value_keeps_field_and_sets_error_witness :
    parse_tokens ⟨setCmdTokens "SetCompiler" "msvc", 0⟩ =
      .ok { tl := ⟨setCmdTokens "SetCompiler" "msvc", 5⟩, info := CompileInfo.init,
            hadError := true, diags := [Diag.invalidCompiler 1 "msvc"] }
    ∧ scalarsLegal (finalSt (parse_tokens ⟨[], 0⟩)).info :=
  ⟨illegal_value_keeps_field_and_sets_error.1 "msvc" (by decide),
   illegal_value_keeps_field_and_sets_error.2.2.2.2.2.2 ⟨[], 0⟩⟩

end Oat

namespace Oat

/-- Counterexample for C7: the input ` \nSetBuildType(debug)\n`, whose first
line contains only a space before its terminator, parses with the error
flag SET and a "commands must begin with a string" diagnostic recorded for
that whitespace-only line (the subsequent valid command is still applied),
contradicting "no error is recorded for those lines". -/
theorem whitespace_only_line_records_error :
    parse_tokens (scan_file " \nSetBuildType(debug)\n") =
      .ok { tl := ⟨[⟨TokenType.LINE_END, "\\n", 1⟩,
                    ⟨TokenType.STRING, "SetBuildType", 2⟩, ⟨TokenType.LEFT_PAREN, "(", 2⟩,
                    ⟨TokenType.STRING, "debug", 2⟩, ⟨TokenType.RIGHT_PAREN, ")", 2⟩,
                    ⟨TokenType.LINE_END, "\\n", 2⟩], 6⟩,
            info := { CompileInfo.init with buildType := "debug" },
            hadError := true,
            diags := [Diag.commandsMustBeginWithString 1 "\\n"] } := by
  rfl

/-- C7 (amended): a wholly blank line is skipped by the scanner — it
contributes no tokens at all, not even LINE_END — and leaves parsing of
subsequent valid commands and the error flag unaffected; a line containing
only whitespace before its terminator, however, emits a LINE_END token,
for which the parser records a "commands must begin with a string" error
(setting the flag) before recovering and applying subsequent valid
commands as usual. -/
theorem blank_line_no_tokens_whitespace_line_errors :
    (∀ (rest : List (List Char)) (idx : Nat),
      scanLinesFrom (['\n'] :: rest) idx = scanLinesFrom rest (idx + 1))
    ∧ (∀ ln : Nat, scanLine (String.toList " \n") ln = [⟨TokenType.LINE_END, "\\n", ln⟩])
    ∧ parse_tokens (scan_file "\nSetBuildType(debug)\n") =
        .ok { tl := ⟨[⟨TokenType.STRING, "SetBuildType", 2⟩, ⟨TokenType.LEFT_PAREN, "(", 2⟩,
                      ⟨TokenType.STRING, "debug", 2⟩, ⟨TokenType.RIGHT_PAREN, ")", 2⟩,
                      ⟨TokenType.LINE_END, "\\n", 2⟩], 5⟩,
              info := { CompileInfo.init with buildType := "debug" },
              hadError := false, diags := [] }
    ∧ parse_tokens (scan_file " \nSetBuildType(debug)\n") =
        .ok { tl := ⟨[⟨TokenType.LINE_END, "\\n", 1⟩,
                      ⟨TokenType.STRING, "SetBuildType", 2⟩, ⟨TokenType.LEFT_PAREN, "(", 2⟩,
                      ⟨TokenType.STRING, "debug", 2⟩, ⟨TokenType.RIGHT_PAREN, ")", 2⟩,
                      ⟨TokenType.LINE_END, "\\n", 2⟩], 6⟩,
              info := { CompileInfo.init with buildType := "debug" },
              hadError := true, diags := [Diag.commandsMustBeginWithString 1 "\\n"] } :=
  ⟨fun _ _ => rfl, fun _ => rfl, rfl, rfl⟩

/-- Witness for C7 (amended) at the concrete line number 3 and a concrete
following line. -/
theorem blank_line_no_tokens_whitespace_line_errors_witness :
    scanLine (String.toList " \n") 3 = [⟨TokenType.LINE_END, "\\n", 3⟩] ∧
    scanLinesFrom (['\n'] :: [['a', '\n']]) 0 = scanLinesFrom [['a', '\n']] 1 :=
  ⟨blank_line_no_tokens_whitespace_line_errors.2.1 3,
   blank_line_no_tokens_whitespace_line_errors.1 [['a', '\n']] 0⟩

/-- C10: Whenever a non-blank line's first character is `(`, `)` or `,`,
the scanner emits the corresponding token twice: the first loop iteration
leaves both cursors so that position 0 is processed a second time. -/
theorem leading_punctuation_token_duplicated :
    ∀ (line : List Char) (ln : Nat) (c : Char), line.head? = some c →
      c = '(' ∨ c = ')' ∨ c = ',' →
      ∃ rest : List Token,
        scanLine line ln = punctToken c ln :: punctToken c ln :: rest := by
  intro line ln c hh hc
  cases line with
  | nil => simp at hh
  | cons c0 l' =>
    have hc0 : c0 = c := by simpa using hh
    subst hc0
    rcases hc with rfl | rfl | rfl <;>
    · simp only [scanLine, List.length_cons, scanLineLoop, List.get?_cons_zero, punctToken,
                 reduceIte]
      exact ⟨_, rfl⟩

/-- Witness for C10 at the concrete line `(x)\n`. -/
theorem leading_punctuation_token_duplicated_witness :
    (String.toList "(x)\n").head? = some '(' ∧
    ∃ rest : List Token,
      scanLine (String.toList "(x)\n") 1 =
        punctToken '(' 1 :: punctToken '(' 1 :: rest :=
  ⟨rfl, leading_punctuation_token_duplicated (String.toList "(x)\n") 1 '(' rfl (Or.inl rfl)⟩

end Oat

namespace Oat

/-- The prefix the scanner's inner while loop consumes consists of valid
characters only. -/
theorem runLen_take_all (l : List Char) :
    (l.take (runLen l)).all is_valid_character = true := by
  induction l with
  | nil => rfl
  | cons c rest ih =>
    by_cases h : is_valid_character c
    · simp [runLen, h, List.take_succ_cons, ih]
    · simp [runLen, h]

/-- Dropping elements preserves an `all` bound. -/
theorem all_of_drop {l : List Char} {n : Nat}
    (h : l.all is_valid_character = true) :
    (l.drop n).all is_valid_character = true := by
  rw [List.all_eq_true] at h ⊢
  exact fun x hx => h x (List.drop_subset n l hx)

/-- From the second iteration of the scanner's line loop onwards, the state
is always `(s, s + 1)`; every STRING token emitted from such a state
starts with the unchecked character at its start position — so its lexeme
is non-empty — and the rest of the lexeme is the maximal valid run after
that character. -/
theorem scanLineLoop_string_shape :
    ∀ (fuel : Nat) (line : List Char) (ln s : Nat) (t : Token),
      t ∈ scanLineLoop fuel line ln s (s + 1) →
      t.tokenType = TokenType.STRING →
      t.lexeme.toList ≠ [] ∧ (t.lexeme.toList.drop 1).all is_valid_character = true := by
  intro fuel
  induction fuel with
  | zero =>
    intro line ln s t ht
    simp [scanLineLoop] at ht
  | succ n ih =>
    intro line ln s t ht htype
    simp only [scanLineLoop] at ht
    cases hg : line.get? s with
    | none =>
      rw [hg] at ht
      simp at ht
    | some c =>
      simp only [hg] at ht
      by_cases h1 : c = '('
      · rw [if_pos h1] at ht
        rcases List.mem_cons.mp ht with rfl | hmem
        · simp at htype
        · exact ih line ln (s + 1) t hmem htype
      rw [if_neg h1] at ht
      by_cases h2 : c = ')'
      · rw [if_pos h2] at ht
        rcases List.mem_cons.mp ht with rfl | hmem
        · simp at htype
        · exact ih line ln (s + 1) t hmem htype
      rw [if_neg h2] at ht
      by_cases h3 : c = ','
      · rw [if_pos h3] at ht
        rcases List.mem_cons.mp ht with rfl | hmem
        · simp at htype
        · exact ih line ln (s + 1) t hmem htype
      rw [if_neg h3] at ht
      by_cases h4 : c = '\n'
      · rw [if_pos h4] at ht
        rcases List.mem_cons.mp ht with rfl | hmem
        · simp at htype
        · exact ih line ln (s + 1) t hmem htype
      rw [if_neg h4] at ht
      by_cases h5 : c = ' ' ∨ c = '\t' ∨ c = '\x00'
      · rw [if_pos h5] at ht
        exact ih line ln (s + 1) t ht htype
      rw [if_neg h5] at ht
      rcases List.mem_cons.mp ht with rfl | hmem
      · obtain ⟨hlt, -⟩ := List.get?_eq_some.mp hg
        have harith : s + 1 + runLen (line.drop (s + 1)) - s = runLen (line.drop (s + 1)) + 1 := by
          omega
        constructor
        · show pySlice line s (s + 1 + runLen (line.drop (s + 1))) ≠ []
          rw [pySlice, List.drop_eq_getElem_cons hlt, harith, List.take_succ_cons]
          simp
        · show ((pySlice line s (s + 1 + runLen (line.drop (s + 1)))).drop 1).all
            is_valid_character = true
          rw [pySlice, List.drop_eq_getElem_cons hlt, harith, List.take_succ_cons]
          simpa using runLen_take_all (line.drop (s + 1))
      · exact ih line ln (s + 1 + runLen (line.drop (s + 1))) t hmem htype

end Oat

namespace Oat

/-- Counterexample for C8: on the line `@\n` the scanner emits a STRING
token with an EMPTY lexeme (begun at position 0 where `@` is not a valid
character) and then a STRING token whose lexeme `@` is not a run of valid
characters, so it is false that every STRING lexeme is a non-empty run of
valid characters. -/
theorem scanner_emits_empty_and_invalid_string_lexeme :
    (scanLine (String.toList "@\n") 1 =
      [⟨TokenType.STRING, "", 1⟩, ⟨TokenType.STRING, "@", 1⟩, ⟨TokenType.LINE_END, "\\n", 1⟩])
    ∧ ¬ (∀ t ∈ scanLine (String.toList "@\n") 1, t.tokenType = TokenType.STRING →
          t.lexeme.toList ≠ [] ∧ t.lexeme.toList.all is_valid_character = true) := by
  constructor
  · rfl
  · decide

/-- C8 (amended): a STRING token's lexeme starts at the scan position where
the token began, but that first character is included without any validity
check, and only the characters after it form the maximal run of valid
characters the scanner consumes: every STRING lexeme's tail (all but its
first character) consists of valid characters, and every STRING token
except possibly the first token of its line is non-empty (a STRING begun
at line position 0 is just the maximal — possibly empty — valid run from
position 0); scanning resumes after the consumed run. -/
theorem string_lexeme_tail_valid_and_nonfirst_nonempty :
    ∀ (line : List Char) (ln : Nat),
      (∀ t ∈ scanLine line ln, t.tokenType = TokenType.STRING →
        (t.lexeme.toList.drop 1).all is_valid_character = true)
      ∧ (∀ t ∈ (scanLine line ln).drop 1, t.tokenType = TokenType.STRING →
        t.lexeme.toList ≠ []) := by
  intro line ln
  rw [scanLine, show line.length + 2 = (line.length + 1) + 1 from rfl, scanLineLoop]
  cases hg : line.get? 0 with
  | none =>
    exact ⟨fun t ht => by simp at ht, fun t ht => by simp at ht⟩
  | some c =>
    dsimp only
    by_cases h1 : c = '('
    · rw [if_pos h1]
      constructor
      · intro t ht htype
        rcases List.mem_cons.mp ht with rfl | hmem
        · simp at htype
        · exact (scanLineLoop_string_shape _ line ln 0 t hmem htype).2
      · intro t ht htype
        simp only [List.drop_succ_cons, List.drop_zero] at ht
        exact (scanLineLoop_string_shape _ line ln 0 t ht htype).1
    rw [if_neg h1]
    by_cases h2 : c = ')'
    · rw [if_pos h2]
      constructor
      · intro t ht htype
        rcases List.mem_cons.mp ht with rfl | hmem
        · simp at htype
        · exact (scanLineLoop_string_shape _ line ln 0 t hmem htype).2
      · intro t ht htype
        simp only [List.drop_succ_cons, List.drop_zero] at ht
        exact (scanLineLoop_string_shape _ line ln 0 t ht htype).1
    rw [if_neg h2]
    by_cases h3 : c = ','
    · rw [if_pos h3]
      constructor
      · intro t ht htype
        rcases List.mem_cons.mp ht with rfl | hmem
        · simp at htype
        · exact (scanLineLoop_string_shape _ line ln 0 t hmem htype).2
      · intro t ht htype
        simp only [List.drop_succ_cons, List.drop_zero] at ht
        exact (scanLineLoop_string_shape _ line ln 0 t ht htype).1
    rw [if_neg h3]
    by_cases h4 : c = '\n'
    · rw [if_pos h4]
      constructor
      · intro t ht htype
        rcases List.mem_cons.mp ht with rfl | hmem
        · simp at htype
        · exact (scanLineLoop_string_shape _ line ln 0 t hmem htype).2
      · intro t ht htype
        simp only [List.drop_succ_cons, List.drop_zero] at ht
        exact (scanLineLoop_string_shape _ line ln 0 t ht htype).1
    rw [if_neg h4]
    by_cases h5 : c = ' ' ∨ c = '\t' ∨ c = '\x00'
    · rw [if_pos h5]
      constructor
      · intro t ht htype
        exact (scanLineLoop_string_shape _ line ln 0 t ht htype).2
      · intro t ht htype
        exact (scanLineLoop_string_shape _ line ln 0 t (List.drop_subset 1 _ ht) htype).1
    rw [if_neg h5]
    constructor
    · intro t ht htype
      rcases List.mem_cons.mp ht with rfl | hmem
      · show (((pySlice line 0 (0 + runLen (line.drop 0))).asString).toList.drop 1).all
          is_valid_character = true
        simp only [pySlice, List.drop_zero, Nat.zero_add, Nat.sub_zero]
        exact all_of_drop (runLen_take_all line)
      · exact (scanLineLoop_string_shape _ line ln (0 + runLen (line.drop 0)) t hmem htype).2
    · intro t ht htype
      simp only [List.drop_succ_cons, List.drop_zero] at ht
      exact (scanLineLoop_string_shape _ line ln (0 + runLen (line.drop 0)) t ht htype).1

/-- Witness for C8 (amended) at the concrete line `ab(\n`: the STRING
token `ab` is in the scan, its tail is valid, and every token after the
first is non-empty. -/
theorem string_lexeme_tail_valid_witness :
    (⟨TokenType.STRING, "ab", 1⟩ : Token) ∈ scanLine (String.toList "ab(\n") 1 ∧
    ((("ab" : String).toList.drop 1).all is_valid_character = true) :=
  ⟨by decide,
   (string_lexeme_tail_valid_and_nonfirst_nonempty (String.toList "ab(\n") 1).1
     ⟨TokenType.STRING, "ab", 1⟩ (by decide) rfl⟩

end Oat
